import Mathlib

/-!
Verification of the trigger policy library (`pgtrigger/contrib.py`).

The repository's visible core is the built-in policy library: `Protect`,
`FSM`, `SoftDelete` and `UpdateSearchVector`, all subclasses of
`core.Trigger`.  The policies themselves are embedded here directly from
the source.  The pieces that live outside the provided source
(`pgtrigger.core` and `pgtrigger.utils`: identifier quoting, the
operation objects, the base `render_trigger`) and the database engine's
evaluation of the rendered PL/pgSQL bodies are modelled from the
specification; each such definition carries a doc comment saying so.
-/

/- ### Shared model of the host ORM metadata (spec section 6) -/

/-- Metadata the host ORM supplies for one model: the table name, the
primary-key column, and the storage column for each field name
(`model._meta.db_table`, `model._meta.pk.column`,
`model._meta.get_field(f).column`). -/
structure ModelMeta where
  db_table : String
  pk_column : String
  column : String → String

/-- Modelled from the spec: `utils.quote`, the centralized SQL identifier
quoting utility (spec sections 2 and 9); wraps an identifier in double
quotes. -/
def quote (label : String) : String := "\"" ++ label ++ "\""

/-- Python-style string join: mirrors `sep.join(xs)`. -/
def strJoin (sep : String) : List String → String
  | [] => ""
  | [x] => x
  | x :: y :: xs => x ++ sep ++ strJoin sep (y :: xs)

/-- Timing of a trigger (`core.Before`, `core.After`, `core.InsteadOf`);
the source only uses `core.Before`. -/
inductive When where
  | before
  | after
  | insteadOf
deriving DecidableEq

/-- Modelled from the spec: the operation objects of `pgtrigger.core` — a
bitset-like composite over INSERT, UPDATE, DELETE with optional
column-scoped UPDATE OF, combined with `|` (spec section 3). -/
inductive Operation where
  | insert
  | update
  | delete
  | updateOf (cols : List String)
  | orOp (a b : Operation)
deriving DecidableEq

/-- Modelled from the spec: the SQL spelling `str(operation)` of an
operation, as used in the rendered trigger clause
`<when> <operation>[ OF <cols>]` (spec section 6). -/
def opSqlName : Operation → String
  | .insert => "INSERT"
  | .update => "UPDATE"
  | .delete => "DELETE"
  | .updateOf cols => "UPDATE OF " ++ strJoin ", " cols
  | .orOp a b => opSqlName a ++ " OR " ++ opSqlName b

/-- Row-level events a trigger can observe; an UPDATE event records which
columns the statement assigns. -/
inductive TriggerEvent where
  | insertRow
  | deleteRow
  | updateRow (cols : List String)
deriving DecidableEq

/-- Modelled from the spec: which events an operation's scope covers.
`UPDATE OF cols` covers an update only when one of the listed columns is
assigned, so updates touching none of the listed columns are excluded
(spec sections 3 and 8). -/
def opMatches : Operation → TriggerEvent → Bool
  | .insert, .insertRow => true
  | .update, .updateRow _ => true
  | .delete, .deleteRow => true
  | .updateOf cols, .updateRow touched => touched.any (fun c => cols.contains c)
  | .orOp a b, e => opMatches a e || opMatches b e
  | _, _ => false

/-- Python truthiness resolution for a string keyword argument with a
class-attribute default: `self.x = arg or default` (an omitted or falsy
argument falls back to the class attribute). -/
def resolveStrArg (arg : Option String) (dflt : Option String) : Option String :=
  match arg with
  | some s => if s = "" then dflt else some s
  | none => dflt

/-- Python truthiness resolution for a list keyword argument with a
class-attribute default: an omitted, `None` or empty-list argument falls
back to the class attribute. -/
def resolveListArg {α : Type} (arg : Option (List α)) (dflt : Option (List α)) :
    Option (List α) :=
  match arg with
  | some l => if l.isEmpty then dflt else some l
  | none => dflt

/- ### Protect (contrib.py lines 10-20) -/

/-- Timing of `Protect`: the class attribute `when = core.Before`. -/
def Protect.when : When := When.before

/-- Leading literal of the `Protect` function body, up to the interpolated
operation name. -/
def protectRaisePre : String :=
  "\n            RAISE EXCEPTION\n                'pgtrigger: Cannot "

/-- Trailing literal of the `Protect` function body, after the interpolated
operation name; passes `TG_TABLE_NAME` as the exception argument. -/
def protectRaisePost : String :=
  " rows from % table',\n                TG_TABLE_NAME;\n        "

/-- Function body rendered by `Protect.get_func`: a single
`RAISE EXCEPTION` statement interpolating `str(self.operation).lower()`. -/
def Protect.get_func (operation : Operation) : String :=
  protectRaisePre ++ (opSqlName operation).toLower ++ protectRaisePost

/-- Character-list test for a pattern at the head of a list. -/
def isPrefixOfChars : List Char → List Char → Bool
  | [], _ => true
  | _ :: _, [] => false
  | a :: as, b :: bs => a == b && isPrefixOfChars as bs

/-- Substring search over the character list of the haystack. -/
def containsSubAux (pat : List Char) : List Char → Bool
  | [] => isPrefixOfChars pat []
  | c :: cs => isPrefixOfChars pat (c :: cs) || containsSubAux pat cs

/-- Boolean substring test on strings. -/
def containsSub (s pat : String) : Bool := containsSubAux pat.data s.data

/-- Checks that a SQL fragment contains none of the procedural
control-flow or query keywords; used to state that a body is a single
straight-line statement. -/
def noControlFlow (s : String) : Bool :=
  !(containsSub s "IF " || containsSub s "ELSE" || containsSub s "CASE" ||
    containsSub s "WHILE" || containsSub s "LOOP" || containsSub s "SELECT" ||
    containsSub s "RETURN")

/- ### FSM (contrib.py lines 23-71) -/

/-- An FSM trigger after successful construction: `name` and `condition`
are forwarded to the base class, `field` is the guarded field and
`transitions` the declared list of `(old, new)` pairs. -/
structure FSM where
  name : Option String
  condition : Option String
  field : String
  transitions : List (String × String)
deriving DecidableEq

/-- Constructor `FSM.__init__`: resolves `field` and `transitions` against
the class attributes (both `None` in the source) with Python truthiness,
then raises `ValueError` at construction time when either is missing or
empty. -/
def FSM.init (name condition : Option String) (field : Option String)
    (transitions : Option (List (String × String))) : Except String FSM :=
  match resolveStrArg field none with
  | none => .error "Must provide \"field\" for FSM"
  | some f =>
    if f = "" then .error "Must provide \"field\" for FSM"
    else
      match resolveListArg transitions none with
      | none => .error "Must provide \"transitions\" for FSM"
      | some ts =>
        if ts = [] then .error "Must provide \"transitions\" for FSM"
        else .ok ⟨name, condition, f, ts⟩

/-- Declared local variables of the FSM function (`FSM.get_declare`). -/
def FSM.get_declare : List (String × String) := [("_is_valid_transition", "BOOLEAN")]

/-- Rendered transition-set literal of `FSM.get_func`:
`'{' + ','.join(f'{old}:{new}' for old, new in transitions) + '}'` —
each pair is joined with `:` and pairs with `,`, with no escaping. -/
def FSM.transition_uris (transitions : List (String × String)) : String :=
  "\x7b" ++ strJoin "," (transitions.map fun p => p.1 ++ ":" ++ p.2) ++ "\x7d"

/-- Function body rendered by `FSM.get_func`: membership of
`CONCAT(OLD.col, ':', NEW.col)` in the rendered array literal, then an
exception naming the field, the old and new values and the table when the
pair is not a member and the value changed, else `RETURN NEW`. -/
def FSM.get_func (m : ModelMeta) (field : String)
    (transitions : List (String × String)) : String :=
  let col := m.column field
  "\n            SELECT CONCAT(OLD." ++ quote col ++ ", ':', NEW." ++ quote col ++
    ") = ANY('" ++ FSM.transition_uris transitions ++
    "'::text[])\n                INTO _is_valid_transition;\n\n            IF (_is_valid_transition IS FALSE AND OLD." ++
    quote col ++ " IS DISTINCT FROM NEW." ++ quote col ++
    ") THEN\n                RAISE EXCEPTION\n                    'pgtrigger: Invalid transition of field \"" ++
    field ++ "\" from \"%\" to \"%\" on table %',\n                    OLD." ++
    quote col ++ ",\n                    NEW." ++ quote col ++
    ",\n                    TG_TABLE_NAME;\n            ELSE\n                RETURN NEW;\n            END IF;\n        "

/-- Split a character list on commas, Postgres-array-literal style: the
empty list parses to one empty element. -/
def splitComma : List Char → List (List Char)
  | [] => [[]]
  | c :: cs =>
    let rest := splitComma cs
    if c = ',' then [] :: rest
    else (c :: rest.headI) :: rest.tail

/-- Join character lists with a comma separator; inverse of `splitComma`
on comma-free elements. -/
def joinComma : List (List Char) → List Char
  | [] => []
  | [l] => l
  | l :: l' :: ls => l ++ ',' :: joinComma (l' :: ls)

/-- Character-level encoding of one transition pair as it appears inside
the rendered array literal: `old:new`. -/
def encPairChars (p : String × String) : List Char := p.1.data ++ ':' :: p.2.data

/-- Modelled from the spec: the elements the database engine obtains by
parsing the array literal rendered into the FSM body (splitting the
brace-delimited text on commas, with no quoting in play). -/
def FSM.array_elems (transitions : List (String × String)) : List (List Char) :=
  splitComma (joinComma (transitions.map encPairChars))

/-- Modelled from the spec: the boolean the FSM body stores into
`_is_valid_transition` — whether `CONCAT(OLD.col, ':', NEW.col)` is a
member (`= ANY`) of the parsed array literal. -/
def FSM.is_valid_transition (transitions : List (String × String))
    (oldv newv : String) : Bool :=
  decide (encPairChars (oldv, newv) ∈ FSM.array_elems transitions)

/-- Outcome of running the FSM trigger body on one row update: either the
body returns `NEW` unchanged, or it raises the exception identifying the
field, the old value, the new value and the table (`TG_TABLE_NAME`). -/
inductive FsmOutcome where
  | returnsNew
  | raises (field oldv newv table : String)
deriving DecidableEq

/-- Modelled from the spec: the database engine's evaluation of the body
rendered by `FSM.get_func` on an update of the guarded (non-null) column
from `oldv` to `newv`: raise exactly when the membership test is false
and the value changed (`IS DISTINCT FROM`), otherwise `RETURN NEW`. -/
def FSM.run (field table : String) (transitions : List (String × String))
    (oldv newv : String) : FsmOutcome :=
  if FSM.is_valid_transition transitions oldv newv = false ∧ oldv ≠ newv then
    .raises field oldv newv table
  else
    .returnsNew

/-- States that a declared state value is free of the two separator
characters of the transition-set encoding. -/
def cleanState (s : String) : Prop := ':' ∉ s.data ∧ ',' ∉ s.data

instance (s : String) : Decidable (cleanState s) := by
  unfold cleanState
  exact inferInstance

/- ### SoftDelete (contrib.py lines 74-118) -/

/-- Python values that may be stored in `SoftDelete.value`: `None`, a
string, a boolean, or an integer (the field types the class documents). -/
inductive Value where
  | null
  | str (s : String)
  | bool (b : Bool)
  | int (n : Int)
deriving DecidableEq

/-- Argument slot for `SoftDelete.__init__`'s `value` keyword: either the
module-level `_unset` sentinel (the default), or an explicitly passed
value — including explicit falsy values such as `None` and `False`. -/
inductive ValueArg where
  | unset
  | given (v : Value)
deriving DecidableEq

/-- Class attribute `SoftDelete.field = None`. -/
def SoftDelete.classField : Option String := none

/-- Class attribute `SoftDelete.value = False`. -/
def SoftDelete.classValue : Value := Value.bool false

/-- An installed `SoftDelete` trigger after successful construction. -/
structure SoftDelete where
  name : Option String
  condition : Option String
  field : String
  value : Value
deriving DecidableEq

/-- Constructor `SoftDelete.__init__`: `field` is resolved with Python
truthiness against the class attribute (`self.field = field or
self.field`), while `value` is compared against the `_unset` sentinel by
identity (`self.value = value if value is not _unset else self.value`),
so an explicit `None` or `False` is kept as passed.  Missing `field`
raises `ValueError` at construction time.  The class attributes are
parameters so subclasses that override them are covered. -/
def SoftDelete.init (classField : Option String) (classValue : Value)
    (name condition : Option String) (field : Option String) (value : ValueArg) :
    Except String SoftDelete :=
  let v := match value with
    | .given v => v
    | .unset => classValue
  match resolveStrArg field classField with
  | none => .error "Must provide \"field\" for soft delete"
  | some f =>
    if f = "" then .error "Must provide \"field\" for soft delete"
    else .ok ⟨name, condition, f, v⟩

/-- Literal renderer `_render_value` inside `SoftDelete.get_func`:
`None` renders as the `NULL` keyword, strings are wrapped verbatim in
single quotes, and any other value is rendered bare via `str(...)`
(Python spells booleans `True`/`False`). -/
def SoftDelete.render_value : Value → String
  | .null => "NULL"
  | .str s => "'" ++ s ++ "'"
  | .bool b => if b then "True" else "False"
  | .int n => toString n

/-- Function body rendered by `SoftDelete.get_func`: an UPDATE of the
model's table setting the configured field's column to the rendered
literal, filtered by primary-key equality with `OLD`, then `RETURN NULL`
to suppress the delete. -/
def SoftDelete.get_func (m : ModelMeta) (field : String) (value : Value) : String :=
  let soft_field := m.column field
  let pk_col := m.pk_column
  "\n            UPDATE " ++ quote m.db_table ++ "\n            SET " ++ soft_field ++
    " = " ++ SoftDelete.render_value value ++ "\n            WHERE " ++ quote pk_col ++
    " = OLD." ++ quote pk_col ++ ";\n            RETURN NULL;\n        "

/-- Single-quote character (used to state facts about SQL string
literals without a quote inside a character literal). -/
def sqChar : Char := Char.ofNat 39

/-- Doubling of embedded single quotes in a character list. -/
def escapeQuotes : List Char → List Char
  | [] => []
  | c :: cs => if c = sqChar then c :: c :: escapeQuotes cs else c :: escapeQuotes cs

/-- Modelled from the spec: engine-correct rendering of a literal value
(spec section 4.3) — `None` as the engine null keyword, strings
single-quoted with embedded quotes escaped by doubling, booleans and
numbers bare. -/
def specRenderValue : Value → String
  | .null => "NULL"
  | .str s => "'" ++ String.mk (escapeQuotes s.data) ++ "'"
  | .bool b => if b then "True" else "False"
  | .int n => toString n

/-- Modelled from the spec: the SoftDelete function body as section 4.3
describes it — the same UPDATE/RETURN NULL shape with the literal
rendered engine-correctly. -/
def SoftDelete.spec_body (m : ModelMeta) (field : String) (value : Value) : String :=
  let soft_field := m.column field
  let pk_col := m.pk_column
  "\n            UPDATE " ++ quote m.db_table ++ "\n            SET " ++ soft_field ++
    " = " ++ specRenderValue value ++ "\n            WHERE " ++ quote pk_col ++
    " = OLD." ++ quote pk_col ++ ";\n            RETURN NULL;\n        "

/-- States that a value's string content (if any) contains no single
quote, so verbatim quote-wrapping and engine-correct escaping agree. -/
def valueQuoteFree : Value → Prop
  | .str s => sqChar ∉ s.data
  | _ => True

instance (v : Value) : Decidable (valueQuoteFree v) := by
  unfold valueQuoteFree
  cases v <;> exact inferInstance

/-- Concrete model metadata used for closed counterexamples. -/
def exMeta : ModelMeta := ⟨"app_model", "id", fun f => f⟩

/- ### UpdateSearchVector (contrib.py lines 121-174) -/

/-- An `UpdateSearchVector` trigger after successful construction. -/
structure UpdateSearchVector where
  name : Option String
  vector_field : String
  document_fields : List String
  config_name : String
  operation : Operation
deriving DecidableEq

/-- Constructor `UpdateSearchVector.__init__`: resolves `vector_field`,
`document_fields` and `config_name` (whose class default is
`pg_catalog.english`) with Python truthiness, raises `ValueError` for a
missing one, and passes `operation=core.Insert |
core.UpdateOf(*document_fields)` to the base constructor. -/
def UpdateSearchVector.init (name vector_field : Option String)
    (document_fields : Option (List String)) (config_name : Option String) :
    Except String UpdateSearchVector :=
  match resolveStrArg vector_field none with
  | none => .error "Must provide \"vector_field\" to update search vector"
  | some vf =>
    if vf = "" then .error "Must provide \"vector_field\" to update search vector"
    else
      match resolveListArg document_fields none with
      | none => .error "Must provide \"document_fields\" to update search vector"
      | some dfs =>
        if dfs = [] then .error "Must provide \"document_fields\" to update search vector"
        else
          match resolveStrArg config_name (some "pg_catalog.english") with
          | none => .error "Must provide \"config_name\" to update search vector"
          | some cn =>
            if cn = "" then .error "Must provide \"config_name\" to update search vector"
            else .ok ⟨name, vf, dfs, cn, Operation.orOp Operation.insert (Operation.updateOf dfs)⟩

/-- Method `UpdateSearchVector.ignore`: unconditionally raises
`RuntimeError(f"Cannot ignore {self.__class__.__name__} triggers")` for
every model argument. -/
def UpdateSearchVector.ignore (_t : UpdateSearchVector) (_m : ModelMeta) :
    Except String Unit :=
  .error "Cannot ignore UpdateSearchVector triggers"

/-- Method `UpdateSearchVector.render_func`: always the empty string — no
function body is generated, signalling that no `CREATE OR REPLACE
FUNCTION` is emitted. -/
def UpdateSearchVector.render_func (_t : UpdateSearchVector) (_m : ModelMeta) : String :=
  ""

/-- Function override built inside `UpdateSearchVector.render_trigger`:
`tsvector_update_trigger(<quoted vector column>, <quoted config_name>,
<quoted document columns>)`. -/
def UpdateSearchVector.function_override (t : UpdateSearchVector) (m : ModelMeta) :
    String :=
  "tsvector_update_trigger(" ++ quote (m.column t.vector_field) ++ ", " ++
    quote t.config_name ++ ", " ++
    strJoin ", " ((t.document_fields.map m.column).map quote) ++ ")"

/-- Modelled from the spec: the base `Trigger.render_trigger` (spec
sections 4.1 and 6) — `CREATE TRIGGER <name> <when> <operation> ON
<table> FOR EACH ROW [WHEN (<condition>)] EXECUTE FUNCTION <function>`,
where a supplied function override is used verbatim in place of the
generated function name. -/
def Trigger.render_trigger (nm : String) (wh : When) (op : Operation)
    (cond : Option String) (m : ModelMeta) (function : Option String) : String :=
  "CREATE TRIGGER " ++ quote nm ++ " " ++
    (match wh with
      | .before => "BEFORE"
      | .after => "AFTER"
      | .insteadOf => "INSTEAD OF") ++ " " ++
    opSqlName op ++ " ON " ++ quote m.db_table ++ " FOR EACH ROW " ++
    (match cond with
      | some c => "WHEN (" ++ c ++ ") "
      | none => "") ++
    "EXECUTE FUNCTION " ++
    (match function with
      | some f => f
      | none => quote nm ++ "()")

/-- Method `UpdateSearchVector.render_trigger`: builds the
`tsvector_update_trigger(...)` override and delegates to the base
`render_trigger` with it (the trigger's resolved name is passed in, name
derivation living in `core`). -/
def UpdateSearchVector.render_trigger (t : UpdateSearchVector) (m : ModelMeta)
    (nm : String) : String :=
  Trigger.render_trigger nm When.before t.operation none m
    (some (t.function_override m))

/-- Concrete transition sets whose rendered array literals coincide:
`[("a", "b:c")]` and `[("a:b", "c")]` both render as `a:b:c` inside the
braces. -/
def exTransitionSet1 : List (String × String) := [("a", "b:c")]

/-- Second transition set of the colliding pair. -/
def exTransitionSet2 : List (String × String) := [("a:b", "c")]

/- ### Supporting lemmas about the comma split/join -/

/-- Splitting a comma-free character list yields that single element. -/
theorem splitComma_no_comma (l : List Char) (h : ',' ∉ l) : splitComma l = [l] := by
  induction l with
  | nil => rfl
  | cons c cs ih =>
    have hc : c ≠ ',' := fun hc => h (hc ▸ List.mem_cons_self c cs)
    have hcs : ',' ∉ cs := fun hm => h (List.mem_cons_of_mem c hm)
    simp [splitComma, hc, ih hcs]

/-- Splitting past a comma-free head element peels it off. -/
theorem splitComma_append_comma (l r : List Char) (h : ',' ∉ l) :
    splitComma (l ++ ',' :: r) = l :: splitComma r := by
  induction l with
  | nil => simp [splitComma]
  | cons c cs ih =>
    have hc : c ≠ ',' := fun hc => h (hc ▸ List.mem_cons_self c cs)
    have hcs : ',' ∉ cs := fun hm => h (List.mem_cons_of_mem c hm)
    simp [splitComma, hc, ih hcs]

/-- Splitting is a left inverse of joining on nonempty lists of
comma-free elements. -/
theorem joinComma_split (ls : List (List Char)) (hne : ls ≠ [])
    (h : ∀ l ∈ ls, ',' ∉ l) : splitComma (joinComma ls) = ls := by
  induction ls with
  | nil => cases hne rfl
  | cons l tl ih =>
    cases tl with
    | nil => exact splitComma_no_comma l (h l (by simp))
    | cons l' tl' =>
      have hj : joinComma (l :: l' :: tl') = l ++ ',' :: joinComma (l' :: tl') := rfl
      rw [hj, splitComma_append_comma l _ (h l (by simp))]
      rw [ih (by simp) (fun x hx => h x (List.mem_cons_of_mem _ hx))]

/-- A single colon separator between colon-free sides makes the
concatenation injective. -/
theorem colon_sep_inj (a b : List Char) : ∀ (c d : List Char), ':' ∉ a → ':' ∉ b →
    a ++ ':' :: b = c ++ ':' :: d → a = c ∧ b = d := by
  induction a with
  | nil =>
    intro c d _ hb h
    cases c with
    | nil => simpa using h
    | cons x c' =>
      simp only [List.nil_append, List.cons_append, List.cons.injEq] at h
      exfalso
      exact hb (h.2 ▸ List.mem_append_right c' (List.mem_cons_self _ _))
  | cons x a' ih =>
    intro c d ha hb h
    have hx : x ≠ ':' := fun hx => ha (hx ▸ List.mem_cons_self _ _)
    have ha' : ':' ∉ a' := fun hm => ha (List.mem_cons_of_mem _ hm)
    cases c with
    | nil =>
      simp only [List.nil_append, List.cons_append, List.cons.injEq] at h
      exact absurd h.1 hx
    | cons y c' =>
      simp only [List.cons_append, List.cons.injEq] at h
      obtain ⟨h1, h2⟩ := h
      obtain ⟨e1, e2⟩ := ih c' d ha' hb h2
      exact ⟨by rw [h1, e1], e2⟩

/-- On clean state values the pair encoding is injective. -/
theorem encPairChars_inj_clean (p : String × String) (o n : String)
    (h1 : cleanState p.1) (h2 : cleanState p.2)
    (h : encPairChars p = encPairChars (o, n)) : p = (o, n) := by
  have h' : p.1.data ++ ':' :: p.2.data = o.data ++ ':' :: n.data := h
  obtain ⟨e1, e2⟩ := colon_sep_inj p.1.data p.2.data o.data n.data h1.1 h2.1 h'
  have hp1 : p.1 = o := String.ext e1
  have hp2 : p.2 = n := String.ext e2
  cases p
  simp_all

/-- On transition sets whose state values are free of `:` and `,`, the
membership test computed by the rendered FSM body agrees exactly with
membership in the declared transition set. -/
theorem fsm_valid_iff (ts : List (String × String)) (o n : String)
    (hclean : ∀ p ∈ ts, cleanState p.1 ∧ cleanState p.2) :
    FSM.is_valid_transition ts o n = true ↔ (o, n) ∈ ts := by
  unfold FSM.is_valid_transition
  rw [decide_eq_true_iff]
  unfold FSM.array_elems
  cases ts with
  | nil => simp [joinComma, splitComma, encPairChars]
  | cons p ts' =>
    have hcf : ∀ x ∈ (p :: ts').map encPairChars, ',' ∉ x := by
      intro x hx
      obtain ⟨q, hq, rfl⟩ := List.mem_map.mp hx
      obtain ⟨⟨_, hq1⟩, _, hq2⟩ := hclean q hq
      intro hm
      rcases List.mem_append.mp hm with h | h
      · exact hq1 h
      · rcases List.mem_cons.mp h with h | h
        · exact absurd h (by decide)
        · exact hq2 h
    rw [joinComma_split _ (by simp) hcf, List.mem_map]
    constructor
    · rintro ⟨q, hq, he⟩
      obtain ⟨hc1, hc2⟩ := hclean q hq
      exact encPairChars_inj_clean q o n hc1 hc2 he ▸ hq
    · intro hmem
      exact ⟨(o, n), hmem, rfl⟩

/- ### Claim theorems: FSM semantics -/

/-- C1 (amended): for an FSM trigger whose declared transition state
values contain no `:` or `,` (so the unescaped rendering is faithful),
and an update with `old ≠ new`, the rendered body raises the exception
identifying the field, old value, new value and table exactly when
`(old, new)` is not in the declared transition set; when it is a member,
the body returns the new row unchanged. -/
theorem FSM_run_c1 (field table : String) (ts : List (String × String))
    (oldv newv : String)
    (hclean : ∀ p ∈ ts, cleanState p.1 ∧ cleanState p.2)
    (hne : oldv ≠ newv) :
    (FSM.run field table ts oldv newv = FsmOutcome.raises field oldv newv table
        ↔ (oldv, newv) ∉ ts)
    ∧ ((oldv, newv) ∈ ts → FSM.run field table ts oldv newv = FsmOutcome.returnsNew) := by
  have hv := fsm_valid_iff ts oldv newv hclean
  constructor
  · constructor
    · intro hr hmem
      have hvt : FSM.is_valid_transition ts oldv newv = true := hv.mpr hmem
      unfold FSM.run at hr
      rw [if_neg] at hr
      · exact absurd hr (by simp)
      · rintro ⟨hf, _⟩
        rw [hvt] at hf
        cases hf
    · intro hmem
      have hvf : FSM.is_valid_transition ts oldv newv = false := by
        cases hb : FSM.is_valid_transition ts oldv newv
        · rfl
        · exact absurd (hv.mp hb) hmem
      unfold FSM.run
      rw [if_pos ⟨hvf, hne⟩]
  · intro hmem
    have hvt := hv.mpr hmem
    unfold FSM.run
    rw [if_neg]
    rintro ⟨hf, _⟩
    rw [hvt] at hf
    cases hf

/-- Witness for C1: on the set `{(draft, published)}` the reverse update
`published → draft` raises the exception carrying field, both values and
the table. -/
theorem FSM_run_c1_witness :
    FSM.run "status" "tbl" [("draft", "published")] "published" "draft"
      = FsmOutcome.raises "status" "published" "draft" "tbl" := by
  have h := FSM_run_c1 "status" "tbl" [("draft", "published")] "published" "draft"
    (by decide) (by decide)
  exact h.1.mpr (by decide)

/-- Counterexample to C1 as stated: with declared set `{(a:b, c)}` the
pair `(a, b:c)` is not a member and the values differ, yet the rendered
body does not raise — the unescaped `old:new` encoding collides. -/
theorem FSM_run_c1_counterexample :
    (("a" : String), ("b:c" : String)) ∉ [(("a:b" : String), ("c" : String))]
    ∧ ("a" : String) ≠ "b:c"
    ∧ FSM.run "status" "tbl" [("a:b", "c")] "a" "b:c" = FsmOutcome.returnsNew := by
  refine ⟨by decide, by decide, by decide⟩

/-- C2: an update whose old and new values of the guarded field are equal
never raises the FSM transition exception, for every transition set —
the guard requires `OLD IS DISTINCT FROM NEW`, so `old = new` always
takes the `RETURN NEW` branch. -/
theorem FSM_run_no_op_update (field table : String)
    (ts : List (String × String)) (v : String) :
    FSM.run field table ts v v = FsmOutcome.returnsNew := by
  unfold FSM.run
  rw [if_neg]
  rintro ⟨_, hne⟩
  exact hne rfl

/-- C9: the transition-set encoding is not injective — the distinct sets
`{(a, b:c)}` and `{(a:b, c)}` render identical function bodies for every
model and field, and the transition `(a, b:c)` outside the second set is
accepted as a member by the rendered membership test. -/
theorem FSM_encoding_not_injective :
    exTransitionSet1 ≠ exTransitionSet2
    ∧ (∀ (m : ModelMeta) (field : String),
        FSM.get_func m field exTransitionSet1 = FSM.get_func m field exTransitionSet2)
    ∧ (("a" : String), ("b:c" : String)) ∉ exTransitionSet2
    ∧ FSM.is_valid_transition exTransitionSet2 "a" "b:c" = true
    ∧ FSM.run "status" "tbl" exTransitionSet2 "a" "b:c" = FsmOutcome.returnsNew := by
  refine ⟨by decide, ?_, by decide, by decide, by decide⟩
  intro m field
  have huris : FSM.transition_uris exTransitionSet1 = FSM.transition_uris exTransitionSet2 := by
    decide
  unfold FSM.get_func
  rw [huris]

/- ### Claim theorems: Protect -/

/-- C4: for every configured operation, the body rendered by
`Protect.get_func` is the fixed single `RAISE EXCEPTION` statement with
only the lowered operation name interpolated — the leading literal is
the raise, the trailing literal passes `TG_TABLE_NAME`, and neither
literal contains any control-flow or query keyword — and the trigger's
timing is `BEFORE`. -/
theorem Protect_single_raise (op : Operation) :
    Protect.when = When.before
    ∧ Protect.get_func op = protectRaisePre ++ (opSqlName op).toLower ++ protectRaisePost
    ∧ containsSub protectRaisePre "RAISE EXCEPTION" = true
    ∧ containsSub protectRaisePost "TG_TABLE_NAME" = true
    ∧ noControlFlow protectRaisePre = true
    ∧ noControlFlow protectRaisePost = true :=
  ⟨rfl, rfl, by decide, by decide, by decide, by decide⟩

/- ### Claim theorems: FSM construction -/

/-- C5: `FSM` construction succeeds exactly for a non-empty field and a
non-empty transition list; a missing/empty field or transition set is a
`ValueError` at construction time (the constructor itself returns the
error, so nothing is deferred to render or install time), and a
successful construction stores a non-empty field and transition set. -/
theorem FSM_init_validation (name cond field : Option String)
    (transitions : Option (List (String × String))) :
    ((∃ t : FSM, FSM.init name cond field transitions = Except.ok t)
        ↔ ((∃ s, field = some s ∧ s ≠ "") ∧ (∃ l, transitions = some l ∧ l ≠ [])))
    ∧ (∀ t : FSM, FSM.init name cond field transitions = Except.ok t →
        t.name = name ∧ t.condition = cond ∧ t.field ≠ "" ∧ t.transitions ≠ []
          ∧ field = some t.field ∧ transitions = some t.transitions)
    ∧ ((field = none ∨ field = some "") →
        FSM.init name cond field transitions
          = Except.error "Must provide \"field\" for FSM")
    ∧ ((∃ s, field = some s ∧ s ≠ "") → (transitions = none ∨ transitions = some []) →
        FSM.init name cond field transitions
          = Except.error "Must provide \"transitions\" for FSM") := by
  rcases field with _ | s
  · refine ⟨?_, ?_, fun _ => rfl, ?_⟩
    · simp [FSM.init, resolveStrArg]
    · intro t h
      exact absurd h (by simp [FSM.init, resolveStrArg])
    · rintro ⟨s, hs, _⟩
      cases hs
  · by_cases hs : s = ""
    · subst hs
      have hred : FSM.init name cond (some "") transitions
          = Except.error "Must provide \"field\" for FSM" := by
        simp [FSM.init, resolveStrArg]
      refine ⟨?_, ?_, fun _ => hred, ?_⟩
      · rw [hred]
        simp
      · intro t h
        rw [hred] at h
        exact Except.noConfusion h
      · rintro ⟨s', hs', hne⟩
        cases hs'
        exact absurd rfl hne
    · have hfres : resolveStrArg (some s) none = some s := by
        simp [resolveStrArg, hs]
      rcases transitions with _ | l
      · have hred : FSM.init name cond (some s) none
            = Except.error "Must provide \"transitions\" for FSM" := by
          simp [FSM.init, resolveStrArg, resolveListArg, hs]
        refine ⟨?_, ?_, ?_, fun _ _ => hred⟩
        · rw [hred]
          simp
        · intro t h
          rw [hred] at h
          exact Except.noConfusion h
        · rintro (h | h) <;> cases h
          exact absurd rfl hs
      · by_cases hl : l = []
        · subst hl
          have hred : FSM.init name cond (some s) (some [])
              = Except.error "Must provide \"transitions\" for FSM" := by
            simp [FSM.init, resolveStrArg, resolveListArg, hs]
          refine ⟨?_, ?_, ?_, fun _ _ => hred⟩
          · rw [hred]
            simp
          · intro t h
            rw [hred] at h
            exact Except.noConfusion h
          · rintro (h | h) <;> cases h
            exact absurd rfl hs
        · have hred : FSM.init name cond (some s) (some l)
              = Except.ok ⟨name, cond, s, l⟩ := by
            simp [FSM.init, resolveStrArg, resolveListArg, hs, hl]
          refine ⟨?_, ?_, ?_, ?_⟩
          · rw [hred]
            constructor
            · intro _
              exact ⟨⟨s, rfl, hs⟩, ⟨l, rfl, hl⟩⟩
            · intro _
              exact ⟨_, rfl⟩
          · intro t h
            rw [hred] at h
            obtain rfl := (Except.ok.inj h).symm
            exact ⟨rfl, rfl, hs, hl, rfl, rfl⟩
          · rintro (h | h) <;> cases h
            exact absurd rfl hs
          · rintro _ (h | h) <;> cases h
            exact absurd rfl hl

/-- Witness for C5: a well-formed construction succeeds. -/
theorem FSM_init_validation_witness :
    ∃ t : FSM, FSM.init none none (some "status") (some [("draft", "published")])
      = Except.ok t :=
  (FSM_init_validation none none (some "status") (some [("draft", "published")])).1.mpr
    ⟨⟨"status", rfl, by decide⟩, ⟨[("draft", "published")], rfl, by decide⟩⟩

/- ### Claim theorems: SoftDelete -/

/-- Escaping is the identity on quote-free character lists. -/
theorem escapeQuotes_of_no_quote (l : List Char) (h : sqChar ∉ l) :
    escapeQuotes l = l := by
  induction l with
  | nil => rfl
  | cons c cs ih =>
    have hc : c ≠ sqChar := fun hc => h (hc ▸ List.mem_cons_self c cs)
    have hcs : sqChar ∉ cs := fun hm => h (List.mem_cons_of_mem c hm)
    simp [escapeQuotes, hc, ih hcs]

/-- On quote-free values the source's verbatim quote-wrapping agrees with
the spec's engine-correct rendering. -/
theorem render_value_eq_spec (v : Value) (h : valueQuoteFree v) :
    SoftDelete.render_value v = specRenderValue v := by
  cases v with
  | str s =>
    have hq : sqChar ∉ s.data := h
    show "'" ++ s ++ "'" = "'" ++ String.mk (escapeQuotes s.data) ++ "'"
    rw [escapeQuotes_of_no_quote s.data hq]
  | null => rfl
  | bool b => rfl
  | int n => rfl

/-- C3 (amended): for every model, field and value whose string content
contains no single quote, the body rendered by `SoftDelete.get_func` is
exactly the spec's UPDATE-then-RETURN-NULL body with the literal rendered
per value type (`NULL` keyword, single-quoted string, bare
boolean/number); for strings the source wraps the value in single quotes
verbatim, which is engine-correct only in the absence of embedded single
quotes. -/
theorem SoftDelete_get_func_spec (m : ModelMeta) (field : String) (v : Value)
    (h : valueQuoteFree v) :
    SoftDelete.get_func m field v = SoftDelete.spec_body m field v := by
  unfold SoftDelete.get_func SoftDelete.spec_body
  rw [← render_value_eq_spec v h]

/-- Witness for C3: a quote-free string value renders identically under
both definitions. -/
theorem SoftDelete_get_func_spec_witness :
    SoftDelete.get_func exMeta "deleted" (Value.str "inactive")
      = SoftDelete.spec_body exMeta "deleted" (Value.str "inactive") :=
  SoftDelete_get_func_spec exMeta "deleted" (Value.str "inactive") (by decide)

/-- Counterexample to C3 as stated: for the string value `a'b` the source
renders the broken literal `'a'b'` (no escaping), which differs from the
engine-correct `'a''b'`, so the rendered body is not engine-correctly
quoted. -/
theorem SoftDelete_quote_counterexample :
    SoftDelete.render_value (Value.str "a'b") = "'a'b'"
    ∧ specRenderValue (Value.str "a'b") = "'a''b'"
    ∧ SoftDelete.get_func exMeta "deleted" (Value.str "a'b")
        ≠ SoftDelete.spec_body exMeta "deleted" (Value.str "a'b") :=
  ⟨by decide, by decide, by decide⟩

/-- C10: `SoftDelete.__init__` separates an omitted `value` from an
explicit falsy one via the `_unset` sentinel — explicit `None` and
explicit `False` are stored exactly (rendering `NULL` and `False`), only
omission falls back to the class attribute (`False` on `SoftDelete`
itself) — whereas an explicit falsy `field` argument falls back to the
class attribute through Python truthiness. -/
theorem SoftDelete_sentinel (cf : Option String) (cv : Value) (n c : Option String) :
    SoftDelete.init cf cv n c (some "is_active") (ValueArg.given Value.null)
        = Except.ok ⟨n, c, "is_active", Value.null⟩
    ∧ SoftDelete.init cf cv n c (some "is_active") (ValueArg.given (Value.bool false))
        = Except.ok ⟨n, c, "is_active", Value.bool false⟩
    ∧ SoftDelete.init cf cv n c (some "is_active") ValueArg.unset
        = Except.ok ⟨n, c, "is_active", cv⟩
    ∧ SoftDelete.init (some "cls_field") cv n c (some "") ValueArg.unset
        = Except.ok ⟨n, c, "cls_field", cv⟩
    ∧ SoftDelete.init (some "cls_field") cv n c (some "") (ValueArg.given Value.null)
        = Except.ok ⟨n, c, "cls_field", Value.null⟩
    ∧ SoftDelete.classValue = Value.bool false
    ∧ SoftDelete.render_value Value.null = "NULL"
    ∧ SoftDelete.render_value (Value.bool false) = "False" := by
  refine ⟨?_, ?_, ?_, ?_, ?_, rfl, rfl, rfl⟩ <;>
    simp [SoftDelete.init, resolveStrArg]

/- ### Claim theorems: UpdateSearchVector -/

/-- C6: `UpdateSearchVector.ignore` raises a `RuntimeError` immediately
for every model argument; the call never returns normally. -/
theorem USV_ignore_always_raises (t : UpdateSearchVector) (m : ModelMeta) :
    UpdateSearchVector.ignore t m
        = Except.error "Cannot ignore UpdateSearchVector triggers"
    ∧ ∀ u : Unit, UpdateSearchVector.ignore t m ≠ Except.ok u :=
  ⟨rfl, fun _ h => Except.noConfusion h⟩

/-- C7: a successfully constructed `UpdateSearchVector` trigger has
operation exactly `INSERT | UPDATE OF <document_fields>`, which covers
inserts but excludes any update that assigns none of the listed document
fields. -/
theorem USV_operation_scope (name vector_field : Option String) (dfs : List String)
    (config_name : Option String) (t : UpdateSearchVector)
    (h : UpdateSearchVector.init name vector_field (some dfs) config_name
        = Except.ok t) :
    t.operation = Operation.orOp Operation.insert (Operation.updateOf dfs)
    ∧ t.document_fields = dfs
    ∧ dfs ≠ []
    ∧ opMatches t.operation TriggerEvent.insertRow = true
    ∧ (∀ cols : List String, (∀ col ∈ cols, col ∉ dfs) →
        opMatches t.operation (TriggerEvent.updateRow cols) = false) := by
  unfold UpdateSearchVector.init at h
  rcases hvf : resolveStrArg vector_field none with _ | vf <;> simp only [hvf] at h
  · exact Except.noConfusion h
  · by_cases hvfe : vf = ""
    · rw [if_pos hvfe] at h
      exact Except.noConfusion h
    · rw [if_neg hvfe] at h
      rcases hdf : resolveListArg (some dfs) none with _ | dfs' <;> simp only [hdf] at h
      · exact Except.noConfusion h
      · have hdfs : dfs' = dfs ∧ dfs ≠ [] := by
          have hdf' : (if dfs.isEmpty = true then (none : Option (List String))
              else some dfs) = some dfs' := hdf
          by_cases he : dfs.isEmpty
          · rw [if_pos he] at hdf'
            exact Option.noConfusion hdf'
          · rw [if_neg he] at hdf'
            refine ⟨(Option.some.inj hdf').symm, fun hnil => he ?_⟩
            rw [hnil]
            rfl
        obtain ⟨rfl, hne⟩ := hdfs
        by_cases hde : dfs' = []
        · exact absurd hde hne
        · rw [if_neg hde] at h
          rcases hcn : resolveStrArg config_name (some "pg_catalog.english")
            with _ | cn <;> simp only [hcn] at h
          · exact Except.noConfusion h
          · by_cases hcne : cn = ""
            · rw [if_pos hcne] at h
              exact Except.noConfusion h
            · rw [if_neg hcne] at h
              obtain rfl := (Except.ok.inj h).symm
              refine ⟨rfl, rfl, hne, rfl, ?_⟩
              intro cols hcols
              have h1 : opMatches Operation.insert (TriggerEvent.updateRow cols)
                  = false := rfl
              have h2 : opMatches (Operation.updateOf dfs') (TriggerEvent.updateRow cols)
                  = cols.any (fun col => dfs'.contains col) := rfl
              show (opMatches Operation.insert (TriggerEvent.updateRow cols)
                  || opMatches (Operation.updateOf dfs') (TriggerEvent.updateRow cols))
                  = false
              rw [h1, h2, Bool.false_or, List.any_eq_false]
              intro x hx
              simpa using hcols x hx

/-- Witness for C7: the trigger built on document fields `title`, `body`
does not match an update that assigns only `other`. -/
theorem USV_operation_scope_witness :
    opMatches (Operation.orOp Operation.insert (Operation.updateOf ["title", "body"]))
        (TriggerEvent.updateRow ["other"]) = false := by
  have h := USV_operation_scope none (some "search") ["title", "body"] none
    ⟨none, "search", ["title", "body"], "pg_catalog.english",
      Operation.orOp Operation.insert (Operation.updateOf ["title", "body"])⟩
    rfl
  exact h.2.2.2.2 ["other"] (by decide)

/-- C8: `UpdateSearchVector.render_func` always returns the empty string
(no generated function body, so no `CREATE OR REPLACE FUNCTION` is
emitted), and `render_trigger` delegates to the base renderer with the
`tsvector_update_trigger(<quoted vector column>, <quoted config_name>,
<quoted document columns>)` override, which appears verbatim at the end
of the rendered trigger statement in place of a generated function
name. -/
theorem USV_render_delegates (t : UpdateSearchVector) (m : ModelMeta) (nm : String) :
    UpdateSearchVector.render_func t m = ""
    ∧ UpdateSearchVector.function_override t m
        = "tsvector_update_trigger(" ++ quote (m.column t.vector_field) ++ ", "
            ++ quote t.config_name ++ ", "
            ++ strJoin ", " ((t.document_fields.map m.column).map quote) ++ ")"
    ∧ UpdateSearchVector.render_trigger t m nm
        = Trigger.render_trigger nm When.before t.operation none m
            (some (UpdateSearchVector.function_override t m))
    ∧ (∃ pre : String, UpdateSearchVector.render_trigger t m nm
        = pre ++ UpdateSearchVector.function_override t m) :=
  ⟨rfl, rfl, rfl, ⟨_, rfl⟩⟩
